import Mathlib

/-!
Shallow embedding of the bowling score tracker's core
(`src/services/PinPhysics.ts` and `src/services/GameEngine.ts`).

Pins are modelled as `PinState` lists, rolls and frames as structures
mirroring the TypeScript value types, and the mutable `GameEngine` as
explicit state passing over `Option GameSession` (the `currentSession`
field, `none` = no active session).  TypeScript `throw` sites become an
error value; `recordRoll` returns the error raised (if any) together
with the session state after the call, so that statements about the
session being left unchanged on failure are expressible.

`GameSession`'s `id`, `league`, `startTime`, `endTime` and `finalScore`
fields are omitted: they are written once by `startNewGame` (from a
nondeterministic clock / random id) and never read or mutated by any of
the operations verified here.  Error strings built by the source are
modelled as tagged values (`PinErr`, `EngineErr`) carrying the same
data the strings interpolate.
-/

inductive PinState where
  | standing
  | knocked
deriving DecidableEq, Repr, Inhabited

structure Roll where
  pins : List PinState
  pinsKnocked : Nat
deriving DecidableEq, Repr, Inhabited

structure Frame where
  frameNumber : Nat
  rolls : List Roll
  isStrike : Bool
  isSpare : Bool
deriving DecidableEq, Repr, Inhabited

/-- `GameMode` from `@/types`: `'league' | 'open'`. -/
inductive GameMode where
  | league
  | openPlay
deriving DecidableEq, Repr, Inhabited

structure GameSession where
  mode : GameMode
  frames : List Frame
deriving DecidableEq, Repr, Inhabited

/-- Tagged model of the validator's error strings. -/
inductive PinErr where
  /-- "Pin array must contain exactly 10 elements" -/
  | wrongLength
  /-- "Pin `p` was already knocked down in previous roll" -/
  | alreadyKnocked (p : Nat)
  /-- "Pin `p` cannot be knocked down without first knocking down pin …" -/
  | missingDependency (p : Nat)
deriving DecidableEq, Repr

structure ValidationResult where
  isValid : Bool
  errors : List PinErr
  invalidPins : List Nat
deriving DecidableEq, Repr

/-- `pins[i]` for a TypeScript array read: out-of-range reads give
`undefined`, which compares unequal to `'knocked'`, so `standing` is the
faithful default for every use below. -/
def pinAt (pins : List PinState) (i : Nat) : PinState :=
  pins.getD i .standing

/-- `PIN_DEPENDENCIES` map from `PinPhysics.ts` (as a total function;
`PIN_DEPENDENCIES.get(p) || []` yields `[]` off the map). -/
def PIN_DEPENDENCIES : Nat → List (List Nat)
  | 1 => []
  | 2 => [[1]]
  | 3 => [[1]]
  | 4 => [[1], [2]]
  | 5 => [[1]]
  | 6 => [[1], [3]]
  | 7 => [[4]]
  | 8 => [[5]]
  | 9 => [[6]]
  | 10 => [[6]]
  | _ => []

/-- The per-pin test of the loop in `PinPhysics.validatePhysics`
(0-based index `i` = pin `i+1`): the pin is knocked, no dependency
group is fully knocked, and it has at least one dependency group. -/
def physicsViolated (pins : List PinState) (i : Nat) : Bool :=
  pinAt pins i == .knocked &&
    (let dependencies := PIN_DEPENDENCIES (i + 1)
     let hasValidPath := dependencies.any (fun group =>
       group.all (fun depPin => pinAt pins (depPin - 1) == .knocked))
     !hasValidPath && dependencies.length > 0)

/-- `PinPhysics.validatePhysics`: every knocked pin must have some
dependency group fully knocked (pins with no group are always fine). -/
def validatePhysics (pins : List PinState) : ValidationResult :=
  let bad := (List.range 10).filter (physicsViolated pins)
  let errors := bad.map (fun i => PinErr.missingDependency (i + 1))
  let invalidPins := bad.map (fun i => i + 1)
  { isValid := errors.length == 0, errors := errors, invalidPins := invalidPins }

/-- `PinPhysics.getStartingPinState`. -/
def getStartingPinState (previousRoll : Option Roll) : List PinState :=
  match previousRoll with
  | none => List.replicate 10 .standing
  | some r => r.pins

/-- `PinPhysics.combinePinStates`. -/
def combinePinStates (startingPins currentRoll : List PinState) : List PinState :=
  (List.range 10).map (fun i =>
    if pinAt startingPins i == .knocked || pinAt currentRoll i == .knocked then
      PinState.knocked
    else
      PinState.standing)

/-- The per-pin test of the re-knock loop in
`PinPhysics.validatePinCombination`: the new combination knocks pin
`i+1` although it was already down in the starting state. -/
def reKnockViolated (pins startingPins : List PinState) (i : Nat) : Bool :=
  pinAt pins i == .knocked && pinAt startingPins i == .knocked

/-- First-occurrence deduplication, as `[...new Set(xs)]` does. -/
def dedupKeepFirst (seen : List Nat) : List Nat → List Nat
  | [] => []
  | x :: xs =>
    if x ∈ seen then dedupKeepFirst seen xs
    else x :: dedupKeepFirst (x :: seen) xs

/-- `PinPhysics.validatePinCombination`. -/
def validatePinCombination (pins : List PinState) (previousRoll : Option Roll) :
    ValidationResult :=
  if pins.length ≠ 10 then
    { isValid := false, errors := [PinErr.wrongLength], invalidPins := [] }
  else
    let startingPins := getStartingPinState previousRoll
    let reKnocked := (List.range 10).filter (reKnockViolated pins startingPins)
    let reKnockErrors := reKnocked.map (fun i => PinErr.alreadyKnocked (i + 1))
    let reKnockPins := reKnocked.map (fun i => i + 1)
    let combinedState := combinePinStates startingPins pins
    let physicsResult := validatePhysics combinedState
    let errors := reKnockErrors ++ physicsResult.errors
    let invalidPins := reKnockPins ++ physicsResult.invalidPins
    { isValid := errors.length == 0
      errors := errors
      invalidPins := dedupKeepFirst [] invalidPins }

/-- `PinPhysics.isPhysicallyPossible`. -/
def isPhysicallyPossible (pins : List PinState) : Bool :=
  if pins.length ≠ 10 then false
  else (validatePhysics pins).isValid

/-- `PinPhysics.getInvalidPins`. -/
def getInvalidPins (pins : List PinState) (previousRoll : Option Roll) : List Nat :=
  (validatePinCombination pins previousRoll).invalidPins

/-! ### GameEngine -/

/-- Tagged model of `GameEngine`'s thrown errors. -/
inductive EngineErr where
  /-- "No active game session" -/
  | noActiveSession
  /-- "Invalid frame index" -/
  | invalidFrameIndex
  /-- "Invalid roll index: must be non-negative" -/
  | invalidRollIndex
  /-- "Invalid pins array: must contain exactly 10 elements" -/
  | invalidPinsLength
  /-- "Invalid pin combination: …" with the validator's error list -/
  | physicsViolation (errors : List PinErr)
  /-- "Invalid roll index `rollIndex` for frame with `rollCount` roll(s)…" -/
  | outOfOrderRoll (rollIndex : Int) (rollCount : Nat)
deriving DecidableEq, Repr

def defFrame : Frame := { frameNumber := 0, rolls := [], isStrike := false, isSpare := false }

/-- The roll value `frame.rolls[k]?.pinsKnocked || 0` falls back to:
zero knocked pins. -/
def defRoll : Roll := { pins := [], pinsKnocked := 0 }

/-- `GameEngine.startNewGame` (id / timestamps omitted, see header). -/
def startNewGame (mode : GameMode) : GameSession :=
  { mode := mode
    frames := (List.range 10).map (fun i =>
      { frameNumber := i + 1, rolls := [], isStrike := false, isSpare := false }) }

/-- The effective previous roll computed inside `GameEngine.recordRoll`
(lines 76–94): the roll at `rollIndex-1`, with the frame-10 resets after
a strike and before a third roll following a spare. -/
def effectivePreviousRoll (frameIndex rollIndex : Int) (frame : Frame) : Option Roll :=
  let previousRoll : Option Roll :=
    if rollIndex > 0 then frame.rolls.get? (rollIndex - 1).toNat else none
  match previousRoll with
  | none => none
  | some prev =>
    if frameIndex == 9 then
      if prev.pinsKnocked == 10 then none
      else if rollIndex == 2 && frame.rolls.length ≥ 2 then
        let firstRoll := frame.rolls.getD 0 defRoll
        let secondRoll := frame.rolls.getD 1 defRoll
        if firstRoll.pinsKnocked + secondRoll.pinsKnocked == 10 then none
        else some prev
      else some prev
    else some prev

/-- Flag recomputation at the end of `recordRoll` (lines 131–161):
both flags are reset, then recomputed from the roll list; the
`frameIndex < 9` and `frameIndex = 9` branches are written out as in the
source. Returns `(isStrike, isSpare)`. -/
def recomputeFlags (frameIndex : Int) (rolls : List Roll) : Bool × Bool :=
  if frameIndex < 9 then
    if rolls.length > 0 && (rolls.getD 0 defRoll).pinsKnocked == 10 then
      (true, false)
    else if rolls.length ≥ 2 then
      let firstRollPins := (rolls.getD 0 defRoll).pinsKnocked
      let secondRollPins := (rolls.getD 1 defRoll).pinsKnocked
      if firstRollPins + secondRollPins == 10 then (false, true) else (false, false)
    else (false, false)
  else
    if rolls.length > 0 && (rolls.getD 0 defRoll).pinsKnocked == 10 then
      (true, false)
    else if rolls.length ≥ 2 then
      let firstRollPins := (rolls.getD 0 defRoll).pinsKnocked
      let secondRollPins := (rolls.getD 1 defRoll).pinsKnocked
      if firstRollPins + secondRollPins == 10 then (false, true) else (false, false)
    else (false, false)

/-- Knocked-pin count used in `recordRoll`:
`pins.filter((pin) => pin === 'knocked').length`. -/
def countKnocked (pins : List PinState) : Nat :=
  (pins.filter (fun pin => pin == .knocked)).length

/-- `GameEngine.recordRoll`.  Returns the raised error (if any) and the
session state after the call; every `throw` in the source happens before
any mutation, which the explicit state passing here makes visible. -/
def recordRoll (currentSession : Option GameSession) (frameIndex rollIndex : Int)
    (pins : List PinState) : Option EngineErr × Option GameSession :=
  match currentSession with
  | none => (some .noActiveSession, none)
  | some s =>
    if frameIndex < 0 || frameIndex ≥ 10 then (some .invalidFrameIndex, some s)
    else if rollIndex < 0 then (some .invalidRollIndex, some s)
    else if pins.length ≠ 10 then (some .invalidPinsLength, some s)
    else
      let frame := s.frames.getD frameIndex.toNat defFrame
      let previousRoll := effectivePreviousRoll frameIndex rollIndex frame
      let physicsValidation := validatePinCombination pins previousRoll
      if !physicsValidation.isValid then
        (some (.physicsViolation physicsValidation.errors), some s)
      else
        let roll : Roll := { pins := pins, pinsKnocked := countKnocked pins }
        if rollIndex == (frame.rolls.length : Int) then
          let newRolls := frame.rolls ++ [roll]
          let flags := recomputeFlags frameIndex newRolls
          let newFrame := { frame with rolls := newRolls, isStrike := flags.1, isSpare := flags.2 }
          (none, some { s with frames := s.frames.set frameIndex.toNat newFrame })
        else if rollIndex < (frame.rolls.length : Int) then
          let newRolls := frame.rolls.set rollIndex.toNat roll
          let flags := recomputeFlags frameIndex newRolls
          let newFrame := { frame with rolls := newRolls, isStrike := flags.1, isSpare := flags.2 }
          (none, some { s with frames := s.frames.set frameIndex.toNat newFrame })
        else
          (some (.outOfOrderRoll rollIndex frame.rolls.length), some s)

/-- `GameEngine.getNextTwoRollsBonus`. -/
def getNextTwoRollsBonus (frames : List Frame) (frameIndex : Nat) : Nat :=
  if frameIndex ≥ 9 then 0
  else
    let nextFrame := frames.getD (frameIndex + 1) defFrame
    match nextFrame.rolls with
    | [] => 0
    | firstNextRoll :: rest =>
      if firstNextRoll.pinsKnocked == 10 then
        if frameIndex == 8 then
          10 + (match rest with | [] => 0 | r :: _ => r.pinsKnocked)
        else
          let frameAfterNext := frames.getD (frameIndex + 2) defFrame
          10 + (match frameAfterNext.rolls with | [] => 0 | r :: _ => r.pinsKnocked)
      else
        firstNextRoll.pinsKnocked + (match rest with | [] => 0 | r :: _ => r.pinsKnocked)

/-- `GameEngine.getNextOneRollBonus`. -/
def getNextOneRollBonus (frames : List Frame) (frameIndex : Nat) : Nat :=
  if frameIndex ≥ 9 then 0
  else
    let nextFrame := frames.getD (frameIndex + 1) defFrame
    match nextFrame.rolls with
    | [] => 0
    | firstNextRoll :: _ => firstNextRoll.pinsKnocked

/-- `GameEngine.calculateStandardFrameScore` (frames 1–9). -/
def calculateStandardFrameScore (frames : List Frame) (frameIndex : Nat)
    (frame : Frame) : Nat :=
  match frame.rolls with
  | [] => 0
  | firstRoll :: rest =>
    if firstRoll.pinsKnocked == 10 then
      10 + getNextTwoRollsBonus frames frameIndex
    else
      match rest with
      | [] => firstRoll.pinsKnocked
      | secondRoll :: _ =>
        let frameTotal := firstRoll.pinsKnocked + secondRoll.pinsKnocked
        if frameTotal == 10 then 10 + getNextOneRollBonus frames frameIndex
        else frameTotal

/-- `GameEngine.calculateFrame10Score`: sum of all recorded rolls. -/
def calculateFrame10Score (frame : Frame) : Nat :=
  (frame.rolls.map (fun roll => roll.pinsKnocked)).sum

/-- Frame score of an active session at an in-range index (the body of
`calculateFrameScore` after its two guard checks). -/
def frameScore (s : GameSession) (frameIndex : Nat) : Nat :=
  let frame := s.frames.getD frameIndex defFrame
  if frameIndex == 9 then calculateFrame10Score frame
  else calculateStandardFrameScore s.frames frameIndex frame

/-- `GameEngine.calculateFrameScore`. -/
def calculateFrameScore (currentSession : Option GameSession) (frameIndex : Int) :
    Except EngineErr Nat :=
  match currentSession with
  | none => .error .noActiveSession
  | some s =>
    if frameIndex < 0 || frameIndex ≥ 10 then .error .invalidFrameIndex
    else .ok (frameScore s frameIndex.toNat)

/-- `GameEngine.calculateTotalScore`: sum of the ten frame scores. -/
def calculateTotalScore (currentSession : Option GameSession) : Except EngineErr Nat :=
  match currentSession with
  | none => .error .noActiveSession
  | some s => .ok (((List.range 10).map (fun i => frameScore s i)).sum)

/-- `GameEngine.isGameComplete`.  Note: with no active session the
source returns `false` — it does not throw. -/
def isGameComplete (currentSession : Option GameSession) : Bool :=
  match currentSession with
  | none => false
  | some s =>
    match (s.frames.getD 9 defFrame).rolls with
    | [] => false
    | firstRoll :: rest =>
      if firstRoll.pinsKnocked == 10 then
        (s.frames.getD 9 defFrame).rolls.length == 3
      else
        match rest with
        | [] => false
        | secondRoll :: _ =>
          if firstRoll.pinsKnocked + secondRoll.pinsKnocked == 10 then
            (s.frames.getD 9 defFrame).rolls.length == 3
          else true

/-! ### Shared concrete inputs -/

deriving instance DecidableEq for Except

def allKnocked : List PinState := List.replicate 10 .knocked

def allStanding : List PinState := List.replicate 10 .standing

/-- The 10-pin array knocking exactly the pins in `ks` (1-based). -/
def pinsOf (ks : List Nat) : List PinState :=
  (List.range 10).map (fun i => if ks.contains (i + 1) then .knocked else .standing)

def strikeRoll : Roll := { pins := allKnocked, pinsKnocked := 10 }

/-- Driver: record one roll unless an earlier call already failed. -/
def applyRoll (st : Option EngineErr × Option GameSession)
    (r : Int × Int × List PinState) : Option EngineErr × Option GameSession :=
  match st with
  | (some e, s) => (some e, s)
  | (none, s) => recordRoll s r.1 r.2.1 r.2.2

/-- Start a new game and record the given `(frameIndex, rollIndex, pins)`
calls in order, stopping at the first raised error. -/
def playAll (mode : GameMode) (rs : List (Int × Int × List PinState)) :
    Option EngineErr × Option GameSession :=
  rs.foldl applyRoll (none, some (startNewGame mode))

/-- The twelve strike rolls of a perfect game: one strike in each of
frames 1–9, then three strikes in frame 10. -/
def perfectRolls : List (Int × Int × List PinState) :=
  ((List.range 9).map (fun i => ((i : Int), (0 : Int), allKnocked))) ++
    [(9, 0, allKnocked), (9, 1, allKnocked), (9, 2, allKnocked)]

/-- The frame array a perfect game produces. -/
def perfectFrames : List Frame :=
  ((List.range 9).map (fun i =>
    { frameNumber := i + 1, rolls := [strikeRoll], isStrike := true, isSpare := false })) ++
    [{ frameNumber := 10, rolls := [strikeRoll, strikeRoll, strikeRoll],
       isStrike := true, isSpare := false }]

/-! ### Claim-side definitions

These transcribe the CLAIMS' wording (not the source) and are compared
with the source-derived functions above. -/

/-- The next-two-rolls strike bonus as claim C2 words it: 0 if frame
`i+1` has no recorded rolls; if frame `i+1`'s first roll is itself a
strike, 10 plus frame `i+2`'s first roll (or plus 0 if unrecorded) for
`i ≤ 7`, but 10 plus frame 10's second roll (or plus 0 if unrecorded)
for `i = 8`; otherwise the sum of frame `i+1`'s first and, if present,
second roll. -/
def claimNextTwoBonus (frames : List Frame) (i : Nat) : Nat :=
  let next := frames.getD (i + 1) defFrame
  match next.rolls with
  | [] => 0
  | r1 :: rest =>
    if r1.pinsKnocked = 10 then
      if i ≤ 7 then
        10 + (match (frames.getD (i + 2) defFrame).rolls with
              | [] => 0
              | r :: _ => r.pinsKnocked)
      else
        10 + (match rest with | [] => 0 | r :: _ => r.pinsKnocked)
    else
      r1.pinsKnocked + (match rest with | [] => 0 | r :: _ => r.pinsKnocked)

/-- Game completion as claim C3 words it, as a predicate of frame 10's
roll list: false with no rolls; with a strike first roll, complete iff
exactly 3 rolls; else with the first two rolls summing to 10, complete
iff 3 rolls; else complete iff at least 2 rolls. -/
def claimComplete (rolls : List Roll) : Bool :=
  match rolls with
  | [] => false
  | firstRoll :: rest =>
    if firstRoll.pinsKnocked = 10 then rolls.length == 3
    else if firstRoll.pinsKnocked + (rest.headD defRoll).pinsKnocked = 10 then
      rolls.length == 3
    else decide (2 ≤ rolls.length)

/-- The fixed dependency graph as claim C4 words it: pin 1: none;
pins 2, 3, 5: `{1}`; pin 4: `{1}` or `{2}`; pin 6: `{1}` or `{3}`;
pin 7: `{4}`; pin 8: `{5}`; pins 9, 10: `{6}`. -/
def claimDeps : Nat → List (List Nat)
  | 1 => []
  | 2 => [[1]]
  | 3 => [[1]]
  | 5 => [[1]]
  | 4 => [[1], [2]]
  | 6 => [[1], [3]]
  | 7 => [[4]]
  | 8 => [[5]]
  | 9 => [[6]]
  | 10 => [[6]]
  | _ => []

/-- Pin `p` (1-based) is knocked in the cumulative state: the union of
the starting state (all standing without a previous roll, else the
previous roll's pins) and the new combination's knockdowns. -/
def cumulativeKnocked (pins : List PinState) (previousRoll : Option Roll) (p : Nat) : Prop :=
  pinAt (getStartingPinState previousRoll) (p - 1) = .knocked ∨ pinAt pins (p - 1) = .knocked

instance (pins : List PinState) (previousRoll : Option Roll) (p : Nat) :
    Decidable (cumulativeKnocked pins previousRoll p) := by
  unfold cumulativeKnocked; infer_instance

/-- Claim C4's case (i): pin `p` is knocked in the new combination and
was already knocked in the starting state. -/
def reKnockCond (pins : List PinState) (previousRoll : Option Roll) (p : Nat) : Prop :=
  1 ≤ p ∧ p ≤ 10 ∧ pinAt pins (p - 1) = .knocked ∧
    pinAt (getStartingPinState previousRoll) (p - 1) = .knocked

/-- Claim C4's case (ii): pin `p` is knocked in the cumulative state,
has at least one dependency group, and no group of the fixed graph is
fully knocked in the cumulative state. -/
def depFailCond (pins : List PinState) (previousRoll : Option Roll) (p : Nat) : Prop :=
  1 ≤ p ∧ p ≤ 10 ∧ cumulativeKnocked pins previousRoll p ∧
    claimDeps p ≠ [] ∧
    ∀ g ∈ claimDeps p, ∃ d ∈ g, ¬ cumulativeKnocked pins previousRoll d

/-- The full characterization claim C4 states for
`validatePinCombination` on a 10-element pin array. -/
def c4Characterization (pins : List PinState) (previousRoll : Option Roll) : Prop :=
  (∀ p, p ∈ (validatePinCombination pins previousRoll).invalidPins ↔
      (reKnockCond pins previousRoll p ∨ depFailCond pins previousRoll p)) ∧
  (∀ p, PinErr.alreadyKnocked p ∈ (validatePinCombination pins previousRoll).errors ↔
      reKnockCond pins previousRoll p) ∧
  (∀ p, PinErr.missingDependency p ∈ (validatePinCombination pins previousRoll).errors ↔
      depFailCond pins previousRoll p) ∧
  ((validatePinCombination pins previousRoll).isValid = true ↔
      (validatePinCombination pins previousRoll).errors = []) ∧
  (validatePinCombination pins previousRoll).invalidPins.Nodup

/-- Frame 10's first two rolls summed to a spare (10 pins across the
first two recorded rolls). -/
def firstTwoSpare (frame : Frame) : Bool :=
  match frame.rolls with
  | r0 :: r1 :: _ => r0.pinsKnocked + r1.pinsKnocked == 10
  | _ => false

/-- The effective previous roll as claim C5 words it: the roll at
`rollIndex-1` in the same frame (none when `rollIndex` is 0), except
that within frame 10 it is absent immediately after a roll that was a
strike, and also before the third roll if the first two rolls summed to
a spare. -/
def claimPrevRoll (frameIndex rollIndex : Int) (frame : Frame) : Option Roll :=
  if rollIndex == 0 then none
  else
    match frame.rolls.get? (rollIndex - 1).toNat with
    | none => none
    | some prev =>
      if frameIndex == 9 && prev.pinsKnocked == 10 then none
      else if frameIndex == 9 && rollIndex == 2 && firstTwoSpare frame then none
      else some prev

/-- The condition under which claim C6 says each error kind is raised. -/
def errCondition (currentSession : Option GameSession) (frameIndex rollIndex : Int)
    (pins : List PinState) : EngineErr → Prop
  | .noActiveSession => currentSession = none
  | .invalidFrameIndex => frameIndex < 0 ∨ 10 ≤ frameIndex
  | .invalidRollIndex => rollIndex < 0
  | .invalidPinsLength => pins.length ≠ 10
  | .outOfOrderRoll ri n => ∃ s, currentSession = some s ∧ ri = rollIndex ∧
      n = (s.frames.getD frameIndex.toNat defFrame).rolls.length ∧ (n : Int) < rollIndex
  | .physicsViolation errs => ∃ s, currentSession = some s ∧
      (validatePinCombination pins
        (effectivePreviousRoll frameIndex rollIndex
          (s.frames.getD frameIndex.toNat defFrame))).isValid = false ∧
      errs = (validatePinCombination pins
        (effectivePreviousRoll frameIndex rollIndex
          (s.frames.getD frameIndex.toNat defFrame))).errors

/-- `isStrike` as claim C7 words it: roll 0 knocks 10 pins. -/
def claimStrikeFlag (rolls : List Roll) : Bool :=
  match rolls with
  | [] => false
  | r0 :: _ => r0.pinsKnocked == 10

/-- `isSpare` as claim C7 words it: rolls 0 and 1 sum to 10 and roll 0
was not a strike. -/
def claimSpareFlag (rolls : List Roll) : Bool :=
  match rolls with
  | [] => false
  | r0 :: rest =>
    !(r0.pinsKnocked == 10) && (r0.pinsKnocked + (rest.headD defRoll).pinsKnocked == 10)

/-- Claim C9's invariant: every stored roll's `pinsKnocked` equals the
count of knocked entries in its 10-element `pins` array. -/
def RollsWF (s : GameSession) : Prop :=
  ∀ frame ∈ s.frames, ∀ roll ∈ frame.rolls,
    roll.pinsKnocked = countKnocked roll.pins ∧ roll.pins.length = 10

/-! ### Theorems -/

/-- Claim C1: for every game in which 12 consecutive strikes are
recorded (a strike as the single roll of frames 1–9, then three strikes
in frame 10) — all twelve `recordRoll` calls succeed and produce the
perfect-game frame array — `calculateTotalScore()` returns 300 and
`calculateFrameScore(i)` returns 30 for every frame index `i` in 0..9. -/
theorem claim1_perfect_game (mode : GameMode) :
    playAll mode perfectRolls = (none, some { mode := mode, frames := perfectFrames }) ∧
    calculateTotalScore (some { mode := mode, frames := perfectFrames }) = .ok 300 ∧
    ∀ i : Fin 10,
      calculateFrameScore (some { mode := mode, frames := perfectFrames }) (i : Int) =
        .ok 30 := by
  cases mode <;> exact ⟨by decide, by decide, by decide⟩

/-- Claim C8 counterexample: with no active session, `isGameComplete`
does not fail with a no-active-session error — it returns the value
`false` (source lines 479–482), unlike the three throwing operations. -/
theorem claim8_counterexample : isGameComplete none = false := rfl

/-- Claim C8 amended: with no active session, `recordRoll`,
`calculateFrameScore` and `calculateTotalScore` each raise the
no-active-session error, while `isGameComplete` returns `false` instead
of raising. -/
theorem claim8_no_session (frameIndex rollIndex : Int) (pins : List PinState) :
    recordRoll none frameIndex rollIndex pins = (some .noActiveSession, none) ∧
    calculateFrameScore none frameIndex = .error .noActiveSession ∧
    calculateTotalScore none = .error .noActiveSession ∧
    isGameComplete none = false :=
  ⟨rfl, rfl, rfl, rfl⟩

/-- The frame-10 completion test of `isGameComplete` as a function of
the roll list (the body of source lines 487–512). -/
def completeOfRolls (rolls : List Roll) : Bool :=
  match rolls with
  | [] => false
  | firstRoll :: rest =>
    if firstRoll.pinsKnocked == 10 then
      rolls.length == 3
    else
      match rest with
      | [] => false
      | secondRoll :: _ =>
        if firstRoll.pinsKnocked + secondRoll.pinsKnocked == 10 then
          rolls.length == 3
        else true

theorem isGameComplete_some (s : GameSession) :
    isGameComplete (some s) = completeOfRolls ((s.frames.getD 9 defFrame).rolls) := by
  rcases h : (s.frames.getD 9 defFrame).rolls with _ | ⟨r0, _ | ⟨r1, rest⟩⟩ <;>
    simp only [isGameComplete, completeOfRolls, h]

theorem completeOfRolls_eq_claim (rolls : List Roll) :
    completeOfRolls rolls = claimComplete rolls := by
  unfold completeOfRolls claimComplete
  rcases rolls with _ | ⟨r0, rest⟩
  · rfl
  · by_cases h10 : r0.pinsKnocked = 10
    · simp [h10]
    · rcases rest with _ | ⟨r1, rest'⟩
      · have hne : ¬ (r0.pinsKnocked + defRoll.pinsKnocked = 10) := by
          unfold defRoll; simp; omega
        simp [h10, hne, defRoll]
      · by_cases hsum : r0.pinsKnocked + r1.pinsKnocked = 10
        · simp [h10, hsum]
        · simp [h10, hsum]

/-- Claim C3: with an active session, `isGameComplete()` is exactly the
claimed function of frame 10's roll list: false with no rolls; with a
strike first roll, true iff exactly 3 rolls; else with the first two
rolls summing to 10, true iff 3 rolls; else true iff at least 2 rolls. -/
theorem claim3_game_complete (s : GameSession) :
    isGameComplete (some s) = claimComplete ((s.frames.getD 9 defFrame).rolls) := by
  rw [isGameComplete_some, completeOfRolls_eq_claim]

/-- Claim C5: the effective previous roll `recordRoll` passes to physics
validation is the roll at `rollIndex-1` in the same frame (none when
`rollIndex` is 0), except that within frame 10 it is treated as absent
immediately after a roll that was a strike, and also before the third
roll if the first two rolls summed to a spare. -/
theorem claim5_effective_previous_roll (frameIndex rollIndex : Int) (frame : Frame)
    (hr : 0 ≤ rollIndex) :
    effectivePreviousRoll frameIndex rollIndex frame =
      claimPrevRoll frameIndex rollIndex frame := by
  by_cases hpos : 0 < rollIndex
  · have hne0 : (rollIndex == 0) = false := by simp; omega
    cases hget : frame.rolls.get? (rollIndex - 1).toNat with
    | none =>
      simp only [List.get?_eq_getElem?, Int.pred_toNat] at hget
      simp [effectivePreviousRoll, claimPrevRoll, hpos, hne0, hget]
    | some prev =>
      simp only [List.get?_eq_getElem?, Int.pred_toNat] at hget
      by_cases h9 : frameIndex = 9
      · subst h9
        by_cases hstrike : prev.pinsKnocked = 10
        · simp [effectivePreviousRoll, claimPrevRoll, hpos, hne0, hget, hstrike]
        · by_cases h2 : rollIndex = 2
          · subst h2
            have hidx : (2 : Int).toNat - 1 = 1 := by decide
            rw [hidx] at hget
            rcases hrolls : frame.rolls with _ | ⟨a, _ | ⟨b, t⟩⟩
            · rw [hrolls] at hget; simp at hget
            · rw [hrolls] at hget; simp at hget
            · have hb : b = prev := by
                rw [hrolls] at hget; simpa using hget
              subst hb
              by_cases hsum : a.pinsKnocked + b.pinsKnocked = 10
              · simp [effectivePreviousRoll, claimPrevRoll, firstTwoSpare, hpos, hne0,
                  hget, hstrike, hrolls, hsum]
              · simp [effectivePreviousRoll, claimPrevRoll, firstTwoSpare, hpos, hne0,
                  hget, hstrike, hrolls, hsum]
          · simp [effectivePreviousRoll, claimPrevRoll, hpos, hne0, hget, hstrike, h2]
      · simp [effectivePreviousRoll, claimPrevRoll, hpos, hne0, hget, h9]
  · have h0 : rollIndex = 0 := by omega
    subst h0
    simp [effectivePreviousRoll, claimPrevRoll]

def w5frame : Frame :=
  { frameNumber := 10, rolls := [strikeRoll], isStrike := true, isSpare := false }

/-- Witness for claim C5 at a concrete input: in frame 10, right after a
strike first roll, the effective previous roll for roll index 1 is
absent, exactly as the claim describes. -/
theorem claim5_witness :
    (0 : Int) ≤ 1 ∧
      effectivePreviousRoll 9 1 w5frame = claimPrevRoll 9 1 w5frame :=
  ⟨by decide, claim5_effective_previous_roll 9 1 w5frame (by decide)⟩

/-- Claim C6: whenever `recordRoll` raises an error — no active session,
frame index out of 0–9, negative roll index, pins array not of length
10, a physics violation reported by the validator, or a roll index
skipping ahead of the frame's current roll count — the session is left
completely unchanged, and the raised error satisfies the condition the
claim attaches to its kind. -/
theorem claim6_error_leaves_session_unchanged
    (currentSession : Option GameSession) (frameIndex rollIndex : Int)
    (pins : List PinState) (e : EngineErr)
    (h : (recordRoll currentSession frameIndex rollIndex pins).1 = some e) :
    (recordRoll currentSession frameIndex rollIndex pins).2 = currentSession ∧
      errCondition currentSession frameIndex rollIndex pins e := by
  cases currentSession with
  | none =>
    simp only [recordRoll] at h
    obtain rfl : EngineErr.noActiveSession = e := by simpa using h
    exact ⟨rfl, rfl⟩
  | some s =>
    simp only [recordRoll] at h ⊢
    split_ifs at h ⊢ with h1 h2 h3 h4 h5 h6
    · obtain rfl : EngineErr.invalidFrameIndex = e := by simpa using h
      refine ⟨rfl, ?_⟩
      simp only [errCondition]
      simp at h1
      omega
    · obtain rfl : EngineErr.invalidRollIndex = e := by simpa using h
      exact ⟨rfl, h2⟩
    · obtain rfl : EngineErr.invalidPinsLength = e := by simpa using h
      exact ⟨rfl, h3⟩
    · simp only [Prod.fst, Option.some.injEq] at h
      subst h
      refine ⟨rfl, ?_⟩
      refine ⟨s, rfl, ?_, ?_⟩
      · simp only [List.getD_eq_getElem?_getD] at h4 ⊢
        simpa using h4
      · simp [List.getD_eq_getElem?_getD]
    · simp only [Prod.fst, Option.some.injEq] at h
      subst h
      refine ⟨rfl, ?_⟩
      refine ⟨s, rfl, rfl, ?_, ?_⟩
      · simp [List.getD_eq_getElem?_getD]
      · simp only [List.getD_eq_getElem?_getD] at h5 h6 ⊢
        simp at h5
        omega

/-- Witness for claim C6 at a concrete input: skipping to roll index 5
in an empty frame raises the sequencing error and leaves the
just-started session unchanged. -/
theorem claim6_witness :
    (recordRoll (some (startNewGame .league)) 0 5 allStanding).1 =
      some (.outOfOrderRoll 5 0) ∧
    ((recordRoll (some (startNewGame .league)) 0 5 allStanding).2 =
        some (startNewGame .league) ∧
      errCondition (some (startNewGame .league)) 0 5 allStanding (.outOfOrderRoll 5 0)) :=
  ⟨by decide,
    claim6_error_leaves_session_unchanged (some (startNewGame .league)) 0 5 allStanding
      (.outOfOrderRoll 5 0) (by decide)⟩

theorem bonus_eq_claim (frames : List Frame) (i : Nat) (hi : i ≤ 8) :
    getNextTwoRollsBonus frames i = claimNextTwoBonus frames i := by
  have h9 : ¬ (i ≥ 9) := by omega
  by_cases h8 : i = 8
  · subst h8
    rcases hrolls : (frames.getD 9 defFrame).rolls with _ | ⟨r1, rest⟩ <;>
      simp [getNextTwoRollsBonus, claimNextTwoBonus, hrolls]
  · have h7 : i ≤ 7 := by omega
    have h8b : (i == 8) = false := by simp; omega
    rcases hrolls : (frames.getD (i + 1) defFrame).rolls with _ | ⟨r1, rest⟩ <;>
      simp [getNextTwoRollsBonus, claimNextTwoBonus, hrolls, h9, h7, h8b]

/-- Claim C2: for every active session and frame index `i` in 0..8
whose first roll is a strike, `calculateFrameScore(i)` equals 10 plus
the claimed next-two-rolls bonus (0 if frame `i+1` has no rolls; if
frame `i+1` opens with a strike, 10 plus frame `i+2`'s first roll — or
frame 10's second roll when `i = 8` — each falling back to 0 when
unrecorded; otherwise the sum of frame `i+1`'s first and, if present,
second roll). -/
theorem claim2_strike_score (s : GameSession) (i : Nat) (hi : i ≤ 8)
    {r0 : Roll} {rest : List Roll}
    (hrolls : (s.frames.getD i defFrame).rolls = r0 :: rest)
    (hstrike : r0.pinsKnocked = 10) :
    calculateFrameScore (some s) (i : Int) =
      .ok (10 + claimNextTwoBonus s.frames i) := by
  have hb : ¬((i : Int) < 0 ∨ (i : Int) ≥ 10) := by omega
  have h9 : (i == 9) = false := by simp; omega
  simp only [calculateFrameScore]
  rw [if_neg]
  · simp only [Int.toNat_natCast, frameScore, h9, Bool.false_eq_true, if_false,
      calculateStandardFrameScore, hrolls, hstrike]
    simp [bonus_eq_claim s.frames i hi]
  · simpa using hb

def w2session : GameSession :=
  { mode := .league
    frames :=
      [{ frameNumber := 1, rolls := [strikeRoll], isStrike := true, isSpare := false },
       { frameNumber := 2,
         rolls := [{ pins := pinsOf [1, 2, 3], pinsKnocked := 3 },
                   { pins := pinsOf [4, 5], pinsKnocked := 2 }],
         isStrike := false, isSpare := false }] ++
      (List.range 8).map (fun k =>
        { frameNumber := k + 3, rolls := [], isStrike := false, isSpare := false }) }

/-- Witness for claim C2 at a concrete input: a strike in frame 1
followed by rolls of 3 and 2 in frame 2 scores 10 plus the claimed
bonus (here 15). -/
theorem claim2_witness :
    (0 : Nat) ≤ 8 ∧
      calculateFrameScore (some w2session) ((0 : Nat) : Int) =
        .ok (10 + claimNextTwoBonus w2session.frames 0) :=
  ⟨by decide, claim2_strike_score w2session 0 (by decide) rfl rfl⟩

theorem recomputeFlags_eq_claim (fi : Int) (rolls : List Roll) :
    recomputeFlags fi rolls = (claimStrikeFlag rolls, claimSpareFlag rolls) := by
  unfold recomputeFlags claimStrikeFlag claimSpareFlag
  split <;>
  · rcases rolls with _ | ⟨r0, _ | ⟨r1, t⟩⟩
    · simp
    · by_cases h10 : r0.pinsKnocked = 10
      · simp [h10]
      · have : ¬ (r0.pinsKnocked + defRoll.pinsKnocked = 10) := by
          unfold defRoll; simp; omega
        simp [h10, this, defRoll]
    · by_cases h10 : r0.pinsKnocked = 10
      · simp [h10]
      · by_cases hsum : r0.pinsKnocked + r1.pinsKnocked = 10
        · simp [h10, hsum]
        · simp [h10, hsum]

/-- The session claim C7 says an accepted in-place correction
produces: the roll at `rollIndex` overwritten with the new roll, and
the frame's flags recomputed from scratch from the roll list. -/
def correctedSession (s : GameSession) (f r : Int) (pins : List PinState) : GameSession :=
  let oldFrame := s.frames.getD f.toNat defFrame
  let newRolls := oldFrame.rolls.set r.toNat { pins := pins, pinsKnocked := countKnocked pins }
  { mode := s.mode
    frames := s.frames.set f.toNat
      { frameNumber := oldFrame.frameNumber
        rolls := newRolls
        isStrike := claimStrikeFlag newRolls
        isSpare := claimSpareFlag newRolls } }

/-- Claim C7: an accepted `recordRoll` with `rollIndex` strictly below
the frame's current roll count overwrites the existing roll at that
index and recomputes `isStrike`/`isSpare` from scratch from the roll
list (`isStrike` iff roll 0 knocks 10; `isSpare` iff rolls 0 and 1 sum
to 10 and roll 0 was not a strike). -/
theorem claim7_correction (s : GameSession) (f r : Int) (pins : List PinState)
    (hf0 : 0 ≤ f) (hf : f < 10) (hr0 : 0 ≤ r) (hp : pins.length = 10)
    (hlt : r < ((s.frames.getD f.toNat defFrame).rolls.length : Int))
    (hvalid : (validatePinCombination pins
        (effectivePreviousRoll f r (s.frames.getD f.toNat defFrame))).isValid = true) :
    recordRoll (some s) f r pins = (none, some (correctedSession s f r pins)) := by
  have c1 : (decide (f < 0) || decide (f ≥ 10)) = false := by simp; omega
  have c5 : (r == ((s.frames.getD f.toNat defFrame).rolls.length : Int)) = false := by
    simp only [beq_eq_false_iff_ne]; omega
  simp only [recordRoll, correctedSession, c1, Bool.false_eq_true, if_false, hvalid,
    Bool.not_true, c5, hlt, if_true, hp]
  rw [if_neg (by omega : ¬ r < 0), if_neg (by simp : ¬ ((10 : Nat) ≠ 10))]
  rw [recomputeFlags_eq_claim]

def w7session : GameSession :=
  { mode := .openPlay
    frames :=
      { frameNumber := 1, rolls := [strikeRoll], isStrike := true, isSpare := false } ::
        (List.range 9).map (fun k =>
          { frameNumber := k + 2, rolls := [], isStrike := false, isSpare := false }) }

def sevenPins : List PinState := pinsOf [1, 2, 3, 4, 5, 6, 7]

/-- Witness for claim C7 at a concrete input: correcting a recorded
strike roll to a 7-pin roll overwrites it and recomputes `isStrike` to
`false`. -/
theorem claim7_witness :
    recordRoll (some w7session) 0 0 sevenPins =
      (none, some (correctedSession w7session 0 0 sevenPins)) ∧
    ((correctedSession w7session 0 0 sevenPins).frames.getD 0 defFrame).isStrike = false :=
  ⟨claim7_correction w7session 0 0 sevenPins (by decide) (by decide) (by decide)
      (by decide) (by decide) (by decide),
    by decide⟩

theorem getD_mem {l : List Frame} {n : Nat} {d : Frame} (h : n < l.length) :
    l.getD n d ∈ l := by
  rw [List.getD_eq_getElem?_getD, List.getElem?_eq_getElem h]
  exact List.getElem_mem h

theorem startNewGame_wf (mode : GameMode) : RollsWF (startNewGame mode) := by
  intro frame hframe roll hroll
  simp [startNewGame] at hframe
  obtain ⟨k, -, rfl⟩ := hframe
  simp at hroll

/-- Claim C9: every accepted `recordRoll(frameIndex, rollIndex, pins)`
stores at that position a `Roll` whose `pins` equal the submitted
10-element array and whose `pinsKnocked` is the count of knocked
entries; consequently the all-rolls invariant `RollsWF` is preserved by
`recordRoll` and holds for `startNewGame`. -/
theorem claim9_roll_integrity (s s' : GameSession) (f r : Int) (pins : List PinState)
    (hlen : s.frames.length = 10)
    (h : recordRoll (some s) f r pins = (none, some s')) :
    (s'.frames.getD f.toNat defFrame).rolls.get? r.toNat =
      some { pins := pins, pinsKnocked := countKnocked pins } ∧
    (RollsWF s → RollsWF s') ∧
    (∀ mode, RollsWF (startNewGame mode)) := by
  refine ?_
  simp only [recordRoll] at h
  split_ifs at h with h1 h2 h3 h4 h5 h6
  · simp at h
  · simp at h
  · simp at h
  · simp at h
  · -- append branch: r == rolls.length
    simp only [Prod.mk.injEq, Option.some.injEq] at h
    obtain ⟨-, hs⟩ := h
    subst hs
    have hf10 : f.toNat < s.frames.length := by
      simp at h1; omega
    have hr : r.toNat = (s.frames.getD f.toNat defFrame).rolls.length := by
      simp only [beq_iff_eq] at h5; omega
    refine ⟨?_, ?_, startNewGame_wf⟩
    · rw [List.getD_eq_getElem?_getD, List.getElem?_set_self hf10]
      simp only [Option.getD_some, hr, List.get?_eq_getElem?]
      exact List.getElem?_concat_length _ _
    · intro hwf frame hframe roll hroll
      rcases List.mem_or_eq_of_mem_set hframe with hmem | rfl
      · exact hwf frame hmem roll hroll
      · simp only [List.mem_append, List.mem_singleton] at hroll
        rcases hroll with hold | rfl
        · exact hwf _ (getD_mem hf10) roll hold
        · simp at h3
          exact ⟨rfl, h3⟩
  · -- overwrite branch: r < rolls.length
    simp only [Prod.mk.injEq, Option.some.injEq] at h
    obtain ⟨-, hs⟩ := h
    subst hs
    have hf10 : f.toNat < s.frames.length := by
      simp at h1; omega
    have hr : r.toNat < (s.frames.getD f.toNat defFrame).rolls.length := by
      omega
    refine ⟨?_, ?_, startNewGame_wf⟩
    · rw [List.getD_eq_getElem?_getD, List.getElem?_set_self hf10]
      simp only [Option.getD_some, List.get?_eq_getElem?]
      exact List.getElem?_set_self hr
    · intro hwf frame hframe roll hroll
      rcases List.mem_or_eq_of_mem_set hframe with hmem | rfl
      · exact hwf frame hmem roll hroll
      · rcases List.mem_or_eq_of_mem_set hroll with hold | rfl
        · exact hwf _ (getD_mem hf10) roll hold
        · simp at h3
          exact ⟨rfl, h3⟩
  · simp at h

def w9session : GameSession :=
  { mode := .league
    frames :=
      { frameNumber := 1, rolls := [strikeRoll], isStrike := true, isSpare := false } ::
        (List.range 9).map (fun k =>
          { frameNumber := k + 2, rolls := [], isStrike := false, isSpare := false }) }

/-- Witness for claim C9 at a concrete input: recording a strike as the
first roll of a new game stores exactly the submitted roll, and the
invariant carries over. -/
theorem claim9_witness :
    ((startNewGame GameMode.league).frames.length = 10 ∧
      recordRoll (some (startNewGame GameMode.league)) 0 0 allKnocked =
        (none, some w9session)) ∧
    ((w9session.frames.getD 0 defFrame).rolls.get? 0 =
        some { pins := allKnocked, pinsKnocked := countKnocked allKnocked } ∧
      (RollsWF (startNewGame GameMode.league) → RollsWF w9session) ∧
      (∀ mode, RollsWF (startNewGame mode))) :=
  ⟨⟨by decide, by decide⟩,
    claim9_roll_integrity (startNewGame GameMode.league) w9session 0 0 allKnocked
      (by decide) (by decide)⟩

theorem mem_dedupKeepFirst (x : Nat) :
    ∀ (l seen : List Nat), x ∈ dedupKeepFirst seen l ↔ x ∈ l ∧ x ∉ seen := by
  intro l
  induction l with
  | nil => intro seen; simp [dedupKeepFirst]
  | cons y ys ih =>
    intro seen
    unfold dedupKeepFirst
    by_cases hy : y ∈ seen
    · rw [if_pos hy, ih]
      constructor
      · rintro ⟨hmem, hns⟩
        exact ⟨List.mem_cons_of_mem _ hmem, hns⟩
      · rintro ⟨hmem, hns⟩
        rcases List.mem_cons.mp hmem with rfl | hmem
        · exact absurd hy hns
        · exact ⟨hmem, hns⟩
    · rw [if_neg hy]
      constructor
      · intro hmem
        rcases List.mem_cons.mp hmem with rfl | hmem
        · exact ⟨List.mem_cons_self _ _, hy⟩
        · obtain ⟨h1, h2⟩ := (ih (y :: seen)).mp hmem
          exact ⟨List.mem_cons_of_mem _ h1, fun hs => h2 (List.mem_cons_of_mem _ hs)⟩
      · rintro ⟨hmem, hns⟩
        rcases List.mem_cons.mp hmem with rfl | hmem
        · exact List.mem_cons_self _ _
        · by_cases hxy : x = y
          · subst hxy; exact List.mem_cons_self _ _
          · refine List.mem_cons_of_mem _ ((ih (y :: seen)).mpr ⟨hmem, fun hs => ?_⟩)
            rcases List.mem_cons.mp hs with h | h
            · exact hxy h
            · exact hns h

theorem nodup_dedupKeepFirst : ∀ (l seen : List Nat), (dedupKeepFirst seen l).Nodup := by
  intro l
  induction l with
  | nil => intro seen; simp [dedupKeepFirst]
  | cons y ys ih =>
    intro seen
    unfold dedupKeepFirst
    by_cases hy : y ∈ seen
    · rw [if_pos hy]; exact ih seen
    · rw [if_neg hy]
      refine List.Nodup.cons ?_ (ih (y :: seen))
      intro hmem
      exact ((mem_dedupKeepFirst y ys (y :: seen)).mp hmem).2 (List.mem_cons_self _ _)

theorem pinAt_combine (st pins : List PinState) (i : Nat) (hi : i < 10) :
    (pinAt (combinePinStates st pins) i = .knocked) ↔
      (pinAt st i = .knocked ∨ pinAt pins i = .knocked) := by
  have hmap : pinAt (combinePinStates st pins) i =
      (if pinAt st i == .knocked || pinAt pins i == .knocked then
        PinState.knocked else PinState.standing) := by
    unfold combinePinStates pinAt
    rw [List.getD_eq_getElem?_getD, List.getElem?_map, List.getElem?_range hi]
    rfl
  rw [hmap]
  by_cases h : (pinAt st i == PinState.knocked || pinAt pins i == PinState.knocked) = true
  · rw [if_pos h]
    simp only [beq_iff_eq, Bool.or_eq_true] at h
    simpa using h
  · rw [if_neg h]
    simp only [beq_iff_eq, Bool.or_eq_true, not_or] at h
    constructor
    · intro hc; cases hc
    · intro hc; rcases hc with hc | hc
      · exact absurd hc (by simpa using h.1)
      · exact absurd hc (by simpa using h.2)

theorem claimDeps_eq_source : ∀ i : Nat, i < 10 → claimDeps (i + 1) = PIN_DEPENDENCIES (i + 1) := by
  decide

theorem deps_bound : ∀ i : Nat, i < 10 → ∀ g ∈ PIN_DEPENDENCIES (i + 1), ∀ d ∈ g, 1 ≤ d ∧ d ≤ 10 := by
  decide

theorem physicsViolated_combined_iff (pins : List PinState) (prev : Option Roll)
    (i : Nat) (hi : i < 10) :
    physicsViolated (combinePinStates (getStartingPinState prev) pins) i = true ↔
      depFailCond pins prev (i + 1) := by
  unfold physicsViolated depFailCond cumulativeKnocked
  rw [claimDeps_eq_source i hi]
  simp only [Bool.and_eq_true, Bool.not_eq_true', List.any_eq_false, List.all_eq_true,
    beq_iff_eq, decide_eq_true_eq, Nat.add_sub_cancel]
  constructor
  · rintro ⟨hk, hpath, hlen⟩
    refine ⟨by omega, by omega, (pinAt_combine _ _ i hi).mp hk, ?_, ?_⟩
    · intro hnil
      rw [hnil] at hlen
      simp at hlen
    · intro g hg
      have h2 := hpath g hg
      push_neg at h2
      obtain ⟨d, hd, hnd⟩ := h2
      obtain ⟨hd1, hd10⟩ := deps_bound i hi g hg d hd
      have hdlt : d - 1 < 10 := by omega
      exact ⟨d, hd, fun hc => hnd ((pinAt_combine _ _ (d - 1) hdlt).mpr hc)⟩
  · rintro ⟨h1, h10, hcum, hnil, hall⟩
    refine ⟨(pinAt_combine _ _ i hi).mpr hcum, ?_, ?_⟩
    · intro g hg hgall
      obtain ⟨d, hd, hnd⟩ := hall g hg
      obtain ⟨hd1, hd10⟩ := deps_bound i hi g hg d hd
      have hdlt : d - 1 < 10 := by omega
      exact hnd ((pinAt_combine _ _ (d - 1) hdlt).mp (hgall d hd))
    · rcases h : PIN_DEPENDENCIES (i + 1) with _ | ⟨g, gs⟩
      · exact absurd h hnil
      · simp [h]

theorem exists_reKnock_iff (pins : List PinState) (prev : Option Roll) (p : Nat) :
    (∃ i, i < 10 ∧ reKnockViolated pins (getStartingPinState prev) i = true ∧ i + 1 = p) ↔
      reKnockCond pins prev p := by
  unfold reKnockCond reKnockViolated
  constructor
  · rintro ⟨i, hi, hv, rfl⟩
    simp only [Bool.and_eq_true, beq_iff_eq] at hv
    exact ⟨by omega, by omega, by simpa [Nat.add_sub_cancel] using hv.1,
      by simpa [Nat.add_sub_cancel] using hv.2⟩
  · rintro ⟨h1, h10, hk, hs⟩
    refine ⟨p - 1, by omega, ?_, by omega⟩
    simp only [Bool.and_eq_true, beq_iff_eq]
    exact ⟨hk, hs⟩

theorem exists_depFail_iff (pins : List PinState) (prev : Option Roll) (p : Nat) :
    (∃ i, i < 10 ∧
        physicsViolated (combinePinStates (getStartingPinState prev) pins) i = true ∧
        i + 1 = p) ↔
      depFailCond pins prev p := by
  constructor
  · rintro ⟨i, hi, hv, rfl⟩
    exact (physicsViolated_combined_iff pins prev i hi).mp hv
  · intro h
    have h1 := h.1
    have h10 := h.2.1
    refine ⟨p - 1, by omega, ?_, by omega⟩
    refine (physicsViolated_combined_iff pins prev (p - 1) (by omega)).mpr ?_
    rwa [Nat.sub_add_cancel h1]

theorem validate_unfold (pins : List PinState) (previousRoll : Option Roll)
    (hlen : pins.length = 10) :
    validatePinCombination pins previousRoll =
      { isValid :=
          ((((List.range 10).filter
                (reKnockViolated pins (getStartingPinState previousRoll))).map
              (fun i => PinErr.alreadyKnocked (i + 1)) ++
            ((List.range 10).filter
                (physicsViolated
                  (combinePinStates (getStartingPinState previousRoll) pins))).map
              (fun i => PinErr.missingDependency (i + 1))).length == 0)
        errors :=
          ((List.range 10).filter
                (reKnockViolated pins (getStartingPinState previousRoll))).map
              (fun i => PinErr.alreadyKnocked (i + 1)) ++
            ((List.range 10).filter
                (physicsViolated
                  (combinePinStates (getStartingPinState previousRoll) pins))).map
              (fun i => PinErr.missingDependency (i + 1))
        invalidPins :=
          dedupKeepFirst []
            (((List.range 10).filter
                  (reKnockViolated pins (getStartingPinState previousRoll))).map
                (fun i => i + 1) ++
              ((List.range 10).filter
                  (physicsViolated
                    (combinePinStates (getStartingPinState previousRoll) pins))).map
                (fun i => i + 1)) } := by
  unfold validatePinCombination validatePhysics
  rw [if_neg (by omega)]

theorem validator_characterization (pins : List PinState) (previousRoll : Option Roll)
    (hlen : pins.length = 10) :
    c4Characterization pins previousRoll := by
  have hval := validate_unfold pins previousRoll hlen
  refine ⟨?_, ?_, ?_, ?_, ?_⟩
  · -- invalid pins characterization
    intro p
    rw [hval]
    show p ∈ dedupKeepFirst [] _ ↔ _
    rw [mem_dedupKeepFirst]
    simp only [List.not_mem_nil, not_false_iff, and_true, List.mem_append,
      List.mem_map, List.mem_filter, List.mem_range]
    rw [← exists_reKnock_iff pins previousRoll p, ← exists_depFail_iff pins previousRoll p]
    constructor
    · rintro (⟨i, ⟨hi, hv⟩, hp⟩ | ⟨i, ⟨hi, hv⟩, hp⟩)
      · exact Or.inl ⟨i, hi, hv, hp⟩
      · exact Or.inr ⟨i, hi, hv, hp⟩
    · rintro (⟨i, hi, hv, hp⟩ | ⟨i, hi, hv, hp⟩)
      · exact Or.inl ⟨i, ⟨hi, hv⟩, hp⟩
      · exact Or.inr ⟨i, ⟨hi, hv⟩, hp⟩
  · -- alreadyKnocked errors
    intro p
    rw [hval]
    show PinErr.alreadyKnocked p ∈ _ ++ _ ↔ _
    simp only [List.mem_append, List.mem_map, List.mem_filter, List.mem_range,
      PinErr.alreadyKnocked.injEq, reduceCtorEq, and_false, exists_false, or_false]
    rw [← exists_reKnock_iff pins previousRoll p]
    constructor
    · rintro ⟨i, ⟨hi, hv⟩, hp⟩
      exact ⟨i, hi, hv, hp⟩
    · rintro ⟨i, hi, hv, hp⟩
      exact ⟨i, ⟨hi, hv⟩, hp⟩
  · -- missingDependency errors
    intro p
    rw [hval]
    show PinErr.missingDependency p ∈ _ ++ _ ↔ _
    simp only [List.mem_append, List.mem_map, List.mem_filter, List.mem_range,
      PinErr.missingDependency.injEq, reduceCtorEq, and_false, exists_false, false_or]
    rw [← exists_depFail_iff pins previousRoll p]
    constructor
    · rintro ⟨i, ⟨hi, hv⟩, hp⟩
      exact ⟨i, hi, hv, hp⟩
    · rintro ⟨i, hi, hv, hp⟩
      exact ⟨i, ⟨hi, hv⟩, hp⟩
  · -- isValid iff no errors
    rw [hval]
    show (_ == 0) = true ↔ _
    simp [List.length_eq_zero]
  · -- dedup
    rw [hval]
    exact nodup_dedupKeepFirst _ _

/-- Claim C4: for every 10-element pin array and optional previous
roll, `validatePinCombination` marks pin `p` invalid exactly when it is
re-knocked (case i, with an already-knocked-down error) or fails its
dependency groups in the cumulative state (case ii, with a
missing-dependency error); `isValid` holds iff no error was recorded
and `invalidPins` is deduplicated.  In particular, knocking pin 7 alone
from a fresh rack is rejected and knocking exactly `{1, 4, 7}` is
accepted. -/
theorem claim4_validator (pins : List PinState) (previousRoll : Option Roll)
    (hlen : pins.length = 10) :
    c4Characterization pins previousRoll ∧
    (validatePinCombination (pinsOf [7]) none).isValid = false ∧
    (validatePinCombination (pinsOf [1, 4, 7]) none).isValid = true :=
  ⟨validator_characterization pins previousRoll hlen, by decide, by decide⟩

/-- Witness for claim C4 at a concrete input: the characterization
instantiated at the 10-element array knocking only pin 7 with no
previous roll. -/
theorem claim4_witness :
    (pinsOf [7]).length = 10 ∧
      (c4Characterization (pinsOf [7]) none ∧
        (validatePinCombination (pinsOf [7]) none).isValid = false ∧
        (validatePinCombination (pinsOf [1, 4, 7]) none).isValid = true) :=
  ⟨by decide, claim4_validator (pinsOf [7]) none (by decide)⟩

theorem pinAt_allKnocked (i : Nat) (hi : i < 10) : pinAt allKnocked i = .knocked := by
  unfold allKnocked pinAt
  rw [List.getD_eq_getElem?_getD, List.getElem?_replicate]
  simp [hi]

theorem claimDeps_bound :
    ∀ p : Nat, p ≤ 10 → ∀ g ∈ claimDeps p, ∀ d ∈ g, 1 ≤ d ∧ d ≤ 10 := by
  decide

theorem depFail_after_strike (pins : List PinState) (p : Nat) :
    ¬ depFailCond pins (some strikeRoll) p := by
  rintro ⟨h1, h10, -, hnil, hall⟩
  rcases hdeps : claimDeps p with _ | ⟨g, gs⟩
  · exact hnil hdeps
  · have hg : g ∈ claimDeps p := by rw [hdeps]; exact List.mem_cons_self _ _
    obtain ⟨d, hd, hnd⟩ := hall g hg
    obtain ⟨hd1, hd10⟩ := claimDeps_bound p h10 g hg d hd
    exact hnd (Or.inl (pinAt_allKnocked (d - 1) (by omega)))

theorem filter_physics_after_strike (pins : List PinState) :
    (List.range 10).filter
      (physicsViolated (combinePinStates (getStartingPinState (some strikeRoll)) pins)) =
      [] := by
  rw [List.filter_eq_nil_iff]
  intro i hi hv
  exact depFail_after_strike pins (i + 1)
    ((physicsViolated_combined_iff pins (some strikeRoll) i (List.mem_range.mp hi)).mp hv)

def appendedSession (s : GameSession) (f : Int) (roll : Roll) : GameSession :=
  let oldFrame := s.frames.getD f.toNat defFrame
  let newRolls := oldFrame.rolls ++ [roll]
  { mode := s.mode
    frames := s.frames.set f.toNat
      { frameNumber := oldFrame.frameNumber
        rolls := newRolls
        isStrike := (recomputeFlags f newRolls).1
        isSpare := (recomputeFlags f newRolls).2 } }

/-- Claim C10: for frames 1–9, a second roll after a strike is not
structurally rejected: with roll 0 a strike, `recordRoll(f, 1, pins)`
raises a PhysicsViolation iff `pins` marks at least one pin knocked
(each such pin reported as already knocked down), and a second roll
with all ten pins standing is accepted and appended to the frame's
roll list. -/
theorem claim10_second_roll_after_strike (s : GameSession) (f : Int) (pins : List PinState)
    (hf0 : 0 ≤ f) (hf8 : f ≤ 8) (hp : pins.length = 10) (hsl : s.frames.length = 10)
    (hrolls : (s.frames.getD f.toNat defFrame).rolls = [strikeRoll]) :
    ((∃ i, i < 10 ∧ pinAt pins i = .knocked) ↔
      (∃ errs, (recordRoll (some s) f 1 pins).1 = some (.physicsViolation errs))) ∧
    (∀ errs, (recordRoll (some s) f 1 pins).1 = some (.physicsViolation errs) →
      ∀ i, i < 10 → pinAt pins i = .knocked → PinErr.alreadyKnocked (i + 1) ∈ errs) ∧
    (pins = allStanding →
      ∃ s', recordRoll (some s) f 1 pins = (none, some s') ∧
        (s'.frames.getD f.toNat defFrame).rolls =
          [strikeRoll, { pins := pins, pinsKnocked := 0 }]) := by
  have hf9 : (f == 9) = false := by simp only [beq_eq_false_iff_ne]; omega
  have hget : (s.frames.getD f.toNat defFrame).rolls.get? ((1 : Int) - 1).toNat =
      some strikeRoll := by
    rw [hrolls]
    rfl
  have heff : effectivePreviousRoll f 1 (s.frames.getD f.toNat defFrame) = some strikeRoll := by
    simp only [effectivePreviousRoll]
    rw [if_pos (by norm_num : (1 : Int) > 0), hget]
    simp [hf9]
  have hvu := validate_unfold pins (some strikeRoll) hp
  rw [filter_physics_after_strike pins] at hvu
  simp only [List.map_nil, List.append_nil] at hvu
  have hmemA : ∀ i : Nat,
      i ∈ (List.range 10).filter (reKnockViolated pins (getStartingPinState (some strikeRoll))) ↔
        (i < 10 ∧ pinAt pins i = .knocked) := by
    intro i
    simp only [List.mem_filter, List.mem_range, reKnockViolated, Bool.and_eq_true, beq_iff_eq]
    constructor
    · rintro ⟨hi, hv, -⟩
      exact ⟨hi, hv⟩
    · rintro ⟨hi, hv⟩
      exact ⟨hi, hv, pinAt_allKnocked i hi⟩
  have hc1 : (decide (f < 0) || decide (f ≥ 10)) = false := by simp; omega
  by_cases hA0 :
      (List.range 10).filter (reKnockViolated pins (getStartingPinState (some strikeRoll))) = []
  · -- no re-knocked pin: validation passes, roll is appended
    have hvalid : (validatePinCombination pins (some strikeRoll)).isValid = true := by
      rw [hvu, hA0]
      decide
    have hrec : recordRoll (some s) f 1 pins =
        (none, some (appendedSession s f { pins := pins, pinsKnocked := countKnocked pins })) := by
      simp only [recordRoll, appendedSession, hc1, Bool.false_eq_true, if_false, heff, hvalid,
        Bool.not_true, hrolls, hp, List.length_cons, List.length_nil]
      rw [if_neg (by omega : ¬ (1 : Int) < 0), if_neg (by simp : ¬ ((10 : Nat) ≠ 10))]
      simp
    refine ⟨?_, ?_, ?_⟩
    · constructor
      · rintro ⟨i, hi, hk⟩
        have hmm : i ∈ (List.range 10).filter
            (reKnockViolated pins (getStartingPinState (some strikeRoll))) :=
          (hmemA i).mpr ⟨hi, hk⟩
        rw [hA0] at hmm
        simp at hmm
      · rintro ⟨errs, herrs⟩
        rw [hrec] at herrs
        simp at herrs
    · intro errs herrs
      rw [hrec] at herrs
      simp at herrs
    · intro hstand
      refine ⟨_, hrec, ?_⟩
      simp only [appendedSession]
      rw [List.getD_eq_getElem?_getD, List.getElem?_set_self (by omega), Option.getD_some]
      rw [hrolls]
      subst hstand
      rfl
  · -- some pin re-knocked: validation fails with already-knocked errors
    have hvalid : (validatePinCombination pins (some strikeRoll)).isValid = false := by
      rw [hvu]
      rcases hL : (List.range 10).filter
          (reKnockViolated pins (getStartingPinState (some strikeRoll))) with _ | ⟨a, L⟩
      · exact absurd hL hA0
      · simp
    have hrec : recordRoll (some s) f 1 pins =
        (some (.physicsViolation (validatePinCombination pins (some strikeRoll)).errors),
          some s) := by
      simp only [recordRoll, hc1, Bool.false_eq_true, if_false, heff, hvalid, Bool.not_false, hp]
      rw [if_neg (by omega : ¬ (1 : Int) < 0), if_neg (by simp : ¬ ((10 : Nat) ≠ 10))]
      simp
    refine ⟨?_, ?_, ?_⟩
    · constructor
      · rintro -
        exact ⟨_, by rw [hrec]⟩
      · rintro -
        rcases hL : (List.range 10).filter
            (reKnockViolated pins (getStartingPinState (some strikeRoll))) with _ | ⟨a, L⟩
        · exact absurd hL hA0
        · have ha := (hmemA a).mp (by rw [hL]; exact List.mem_cons_self _ _)
          exact ⟨a, ha.1, ha.2⟩
    · intro errs herrs i hi hk
      rw [hrec] at herrs
      simp only [Option.some.injEq, EngineErr.physicsViolation.injEq] at herrs
      subst herrs
      rw [hvu]
      simp only [List.mem_map]
      exact ⟨i, (hmemA i).mpr ⟨hi, hk⟩, rfl⟩
    · intro hstand
      exfalso
      apply hA0
      rw [List.filter_eq_nil_iff]
      intro a ha hv
      have hmm := (hmemA a).mp (List.mem_filter.mpr ⟨ha, hv⟩)
      rw [hstand] at hmm
      have h2 := hmm.2
      unfold allStanding pinAt at h2
      rw [List.getD_eq_getElem?_getD, List.getElem?_replicate] at h2
      simp [hmm.1] at h2

/-- Witness for claim C10 at a concrete input: after a strike in frame
1, an all-standing second roll is accepted and appended. -/
theorem claim10_witness :
    (w7session.frames.getD 0 defFrame).rolls = [strikeRoll] ∧
    ∃ s', recordRoll (some w7session) 0 1 allStanding = (none, some s') ∧
      (s'.frames.getD 0 defFrame).rolls =
        [strikeRoll, { pins := allStanding, pinsKnocked := 0 }] :=
  ⟨by decide,
    (claim10_second_roll_after_strike w7session 0 allStanding (by decide) (by decide)
        (by decide) (by decide) (by decide)).2.2 rfl⟩
